import Mathlib

/-!
Verification of the asura-ai model-dispatch core: rate limiting
(BaseApiProvider.checkRateLimit / updateRateLimitCounters), the model
orchestrator (ModelOrchestrator.executeTask and its selector registry), the
effective request options (ModelOrchestrator.executeWithModel and the
task-type default tables), model introspection (getModels /
getModelsByCapability) and the streaming decoders of the OpenAI and
Anthropic providers. Every definition is a shallow embedding of the
corresponding TypeScript: machine time stamps are Int milliseconds, JS
numbers that hold token counts are Nat, temperatures are rationals, and the
JS truthiness of optional numeric fields is made explicit.
-/

namespace Asura

/-! ## Rate limiter (BaseApiProvider) -/

/-- State of the per-provider rate-limit window, mirroring the
`RateLimitState` interface: request and token counters plus the time of the
last request and of the last window reset (both in ms). -/
structure RateLimitState where
  requestsThisMinute : Nat
  tokensThisMinute : Nat
  lastRequestTime : Int
  lastResetTime : Int
  deriving Repr, DecidableEq

/-- The two rate-limit thresholds of `ApiProviderConfig`. In the source both
fields are optional JS numbers used under truthiness tests, so `0` here
plays the role of an absent (falsy) limit exactly as in the code. -/
structure RateLimitConfig where
  rateLimitRPM : Nat
  rateLimitTPM : Nat
  deriving Repr, DecidableEq

/-- Result record of a rate-limit check: `{ allowed: boolean; retryAfter?: number }`. -/
structure RateLimitCheck where
  allowed : Bool
  retryAfter : Option Int
  deriving Repr, DecidableEq

/-- The `Math.ceil((60000 - elapsedSinceReset) / 1000)` computation of the
source, over exact rationals so that the ceiling matches JS semantics. -/
def retryAfterOf (elapsed : Int) : Int :=
  Int.ceil ((60000 - (elapsed : ℚ)) / 1000)

/-- Shallow embedding of `BaseApiProvider.checkRateLimit`. `now` is the
value of `Date.now()` at the call. Returns the check result together with
the (possibly reset) window state; the source mutates `this.rateLimitState`
only in the reset branch. -/
def checkRateLimit (cfg : RateLimitConfig) (s : RateLimitState) (now : Int)
    (estimatedTokens : Nat) : RateLimitCheck × RateLimitState :=
  let elapsedSinceReset := now - s.lastResetTime
  if 60000 ≤ elapsedSinceReset then
    (⟨true, none⟩, ⟨0, 0, now, now⟩)
  else if cfg.rateLimitRPM ≠ 0 ∧ cfg.rateLimitRPM ≤ s.requestsThisMinute then
    (⟨false, some (retryAfterOf elapsedSinceReset)⟩, s)
  else if cfg.rateLimitTPM ≠ 0 ∧
      cfg.rateLimitTPM < s.tokensThisMinute + estimatedTokens then
    (⟨false, some (retryAfterOf elapsedSinceReset)⟩, s)
  else
    (⟨true, none⟩, s)

/-- Shallow embedding of `BaseApiProvider.updateRateLimitCounters`: reset
and seed the window if a minute has passed, otherwise increment. -/
def updateRateLimitCounters (s : RateLimitState) (now : Int) (tokens : Nat) :
    RateLimitState :=
  let elapsedSinceReset := now - s.lastResetTime
  if 60000 ≤ elapsedSinceReset then
    ⟨1, tokens, now, now⟩
  else
    ⟨s.requestsThisMinute + 1, s.tokensThisMinute + tokens, now, s.lastResetTime⟩

/-- Check algorithm as worded by the specification (claim C4): reset and
allow after 60 s; otherwise reject, with `retryAfter = ceil((60000 - elapsed)/1000)`,
when the request counter has reached `rpmLimit` or the token counter plus
the estimate exceeds `tpmLimit`; otherwise allow. Written from the claim
text, to be compared with `checkRateLimit`. -/
def checkRateLimitClaim (rpmLimit tpmLimit : Nat) (s : RateLimitState)
    (now : Int) (estimatedTokens : Nat) : RateLimitCheck × RateLimitState :=
  let elapsed := now - s.lastResetTime
  if 60000 ≤ elapsed then
    (⟨true, none⟩, ⟨0, 0, now, now⟩)
  else if rpmLimit ≤ s.requestsThisMinute ∨
      tpmLimit < s.tokensThisMinute + estimatedTokens then
    (⟨false, some (Int.ceil ((60000 - (elapsed : ℚ)) / 1000))⟩, s)
  else
    (⟨true, none⟩, s)

/-- Update algorithm as worded by the specification (claim C4): increment
the request and token counters when the window has not rolled over, reset
the window to one request and `actualTokens` tokens when it has. The time
of the last request is recorded in both cases, as the completed call is the
new last request. Written from the claim text. -/
def updateRateLimitClaim (s : RateLimitState) (now : Int) (actualTokens : Nat) :
    RateLimitState :=
  let elapsed := now - s.lastResetTime
  if 60000 ≤ elapsed then
    ⟨1, actualTokens, now, now⟩
  else
    ⟨s.requestsThisMinute + 1, s.tokensThisMinute + actualTokens, now, s.lastResetTime⟩

/-- C4: with both limits actually configured (positive, hence truthy in the
source), `checkRateLimit` and `updateRateLimitCounters` implement exactly
the algorithm stated by the specification. -/
theorem checkRateLimit_implements_claim (cfg : RateLimitConfig)
    (s : RateLimitState) (now : Int) (est act : Nat)
    (hrpm : 0 < cfg.rateLimitRPM) (htpm : 0 < cfg.rateLimitTPM) :
    checkRateLimit cfg s now est
        = checkRateLimitClaim cfg.rateLimitRPM cfg.rateLimitTPM s now est ∧
    updateRateLimitCounters s now act = updateRateLimitClaim s now act := by
  constructor
  · unfold checkRateLimit checkRateLimitClaim retryAfterOf
    split_ifs with h1 h2 h3 h4 h5 <;> first
      | rfl
      | (exfalso; omega)
  · rfl

/-- Witness for C4 at a concrete configuration and state. -/
theorem checkRateLimit_implements_claim_witness :
    checkRateLimit ⟨3, 100⟩ ⟨1, 10, 0, 0⟩ 500 7
        = checkRateLimitClaim 3 100 ⟨1, 10, 0, 0⟩ 500 7 ∧
    updateRateLimitCounters ⟨1, 10, 0, 0⟩ 500 7
        = updateRateLimitClaim ⟨1, 10, 0, 0⟩ 500 7 :=
  checkRateLimit_implements_claim ⟨3, 100⟩ ⟨1, 10, 0, 0⟩ 500 7 7
    (by decide) (by decide)

/-- C10: a rejecting `checkRateLimit` call leaves the window state exactly
as it was; only the reset branch, which always allows, mutates it. -/
theorem checkRateLimit_reject_preserves_state (cfg : RateLimitConfig)
    (s : RateLimitState) (now : Int) (est : Nat)
    (h : (checkRateLimit cfg s now est).1.allowed = false) :
    (checkRateLimit cfg s now est).2 = s := by
  unfold checkRateLimit at h ⊢
  by_cases h1 : (60000 : Int) ≤ now - s.lastResetTime
  · simp [h1] at h
  · by_cases h2 : cfg.rateLimitRPM ≠ 0 ∧ cfg.rateLimitRPM ≤ s.requestsThisMinute
    · simp [h1, h2]
    · by_cases h3 : cfg.rateLimitTPM ≠ 0 ∧
          cfg.rateLimitTPM < s.tokensThisMinute + est
      · simp [h1, h2, h3]
      · simp [h1, h2, h3] at h

/-- Witness for C10: a concrete rejected check (request limit reached
inside the window) returns the state unchanged. -/
theorem checkRateLimit_reject_preserves_state_witness :
    (checkRateLimit ⟨1, 100⟩ ⟨1, 0, 0, 0⟩ 10 1).1.allowed = false ∧
    (checkRateLimit ⟨1, 100⟩ ⟨1, 0, 0, 0⟩ 10 1).2 = ⟨1, 0, 0, 0⟩ :=
  ⟨by decide,
   checkRateLimit_reject_preserves_state ⟨1, 100⟩ ⟨1, 0, 0, 0⟩ 10 1 (by decide)⟩

/-- One provider call seen from the rate limiter, as each provider method
performs it: `checkRateLimit(estimate)` before the call and, only if
allowed, `updateRateLimitCounters(actual)` after it completes. Returns
whether the call was admitted together with the resulting window state. -/
def rateLimitCall (cfg : RateLimitConfig) (s : RateLimitState) (now : Int)
    (est actual : Nat) : Bool × RateLimitState :=
  let c := checkRateLimit cfg s now est
  if c.1.allowed then (true, updateRateLimitCounters c.2 now actual)
  else (false, c.2)

/-- A sequence of provider calls through the same window; each list entry is
the call time, the token estimate and the actual token usage. The first
component is true iff every call was admitted. -/
def runRateLimitCalls (cfg : RateLimitConfig) :
    RateLimitState → List (Int × Nat × Nat) → Bool × RateLimitState
  | s, [] => (true, s)
  | s, c :: rest =>
    let r := rateLimitCall cfg s c.1 c.2.1 c.2.2
    let r2 := runRateLimitCalls cfg r.2 rest
    (r.1 && r2.1, r2.2)

/-- Helper: with `rpmLimit = N`, no token limit, and every call inside the
window that started at `t0`, a sequence of at most `N - k` calls starting
from a window holding `k` requests is fully admitted and just accumulates
the counters, never moving the window start. -/
theorem runRateLimitCalls_in_window (N : Nat) (t0 : Int)
    (calls : List (Int × Nat × Nat)) :
    ∀ (k tok : Nat) (lrt : Int),
      (∀ c ∈ calls, c.1 - t0 < 60000) → k + calls.length ≤ N →
      ∃ lrt2 : Int, runRateLimitCalls ⟨N, 0⟩ ⟨k, tok, lrt, t0⟩ calls
        = (true, ⟨k + calls.length, tok + (calls.map (fun c => c.2.2)).sum,
                  lrt2, t0⟩) := by
  induction calls with
  | nil =>
    intro k tok lrt _ _
    exact ⟨lrt, by simp [runRateLimitCalls]⟩
  | cons c rest ih =>
    intro k tok lrt hin hle
    have hc : c.1 - t0 < 60000 := hin c (List.mem_cons_self c rest)
    have hkN : k < N := by
      simp only [List.length_cons] at hle; omega
    have hcheck : checkRateLimit ⟨N, 0⟩ ⟨k, tok, lrt, t0⟩ c.1 c.2.1
        = (⟨true, none⟩, ⟨k, tok, lrt, t0⟩) := by
      unfold checkRateLimit
      rw [if_neg (by simpa using by omega : ¬ ((60000 : Int) ≤ c.1 - t0))]
      rw [if_neg (by simp; omega)]
      rw [if_neg (by simp)]
    have hupd : updateRateLimitCounters ⟨k, tok, lrt, t0⟩ c.1 c.2.2
        = ⟨k + 1, tok + c.2.2, c.1, t0⟩ := by
      unfold updateRateLimitCounters
      rw [if_neg (by simpa using by omega : ¬ ((60000 : Int) ≤ c.1 - t0))]
    have hstep : rateLimitCall ⟨N, 0⟩ ⟨k, tok, lrt, t0⟩ c.1 c.2.1 c.2.2
        = (true, ⟨k + 1, tok + c.2.2, c.1, t0⟩) := by
      unfold rateLimitCall
      rw [hcheck]
      simp [hupd]
    obtain ⟨lrt2, hrest⟩ := ih (k + 1) (tok + c.2.2) c.1
      (fun d hd => hin d (List.mem_cons_of_mem c hd))
      (by simp only [List.length_cons] at hle ⊢; omega)
    refine ⟨lrt2, ?_⟩
    unfold runRateLimitCalls
    simp only [hstep, hrest, Bool.true_and, List.length_cons, List.map_cons,
      List.sum_cons, Prod.mk.injEq, RateLimitState.mk.injEq]
    refine ⟨trivial, by omega, by omega, trivial, trivial⟩

/-- C5: with `rpmLimit = N` and no token limit, after `N` admitted calls
inside the 60-second window that started at `t0`, a further check still
inside the window is rejected with `0 < retryAfter ≤ 60`; once the window
has rolled over the next check succeeds, resets the window, and the
following update leaves counters reflecting only the new call. -/
theorem rateLimit_rpm_window (N : Nat) (hN : 0 < N) (t0 lrt : Int)
    (calls : List (Int × Nat × Nat)) (hlen : calls.length = N)
    (hin : ∀ c ∈ calls, c.1 - t0 < 60000)
    (t : Int) (ht0 : 0 ≤ t - t0) (ht1 : t - t0 < 60000) (est : Nat)
    (t2 : Int) (ht2 : 60000 ≤ t2 - t0) (est2 : Nat)
    (t3 : Int) (ht3 : t3 - t2 < 60000) (a : Nat) :
    (runRateLimitCalls ⟨N, 0⟩ ⟨0, 0, lrt, t0⟩ calls).1 = true ∧
    (∃ r : Int,
      checkRateLimit ⟨N, 0⟩ (runRateLimitCalls ⟨N, 0⟩ ⟨0, 0, lrt, t0⟩ calls).2
          t est
        = (⟨false, some r⟩,
           (runRateLimitCalls ⟨N, 0⟩ ⟨0, 0, lrt, t0⟩ calls).2) ∧
      0 < r ∧ r ≤ 60) ∧
    checkRateLimit ⟨N, 0⟩ (runRateLimitCalls ⟨N, 0⟩ ⟨0, 0, lrt, t0⟩ calls).2
        t2 est2
      = (⟨true, none⟩, ⟨0, 0, t2, t2⟩) ∧
    updateRateLimitCounters ⟨0, 0, t2, t2⟩ t3 a = ⟨1, a, t3, t2⟩ := by
  obtain ⟨lrt2, hrun⟩ :=
    runRateLimitCalls_in_window N t0 calls 0 0 lrt hin (by omega)
  have hrej : checkRateLimit ⟨N, 0⟩
      ⟨0 + calls.length, 0 + (calls.map (fun c => c.2.2)).sum, lrt2, t0⟩ t est
      = (⟨false, some (retryAfterOf (t - t0))⟩,
         ⟨0 + calls.length, 0 + (calls.map (fun c => c.2.2)).sum, lrt2, t0⟩) := by
    unfold checkRateLimit
    rw [if_neg (by simpa using by omega : ¬ ((60000 : Int) ≤ t - t0))]
    rw [if_pos (by simp; omega)]
  have hpos : 0 < retryAfterOf (t - t0) := by
    unfold retryAfterOf
    have h60 : ((t - t0 : Int) : ℚ) < 60000 := by exact_mod_cast ht1
    exact Int.ceil_pos.mpr (div_pos (by linarith) (by norm_num))
  have hle60 : retryAfterOf (t - t0) ≤ 60 := by
    unfold retryAfterOf
    rw [Int.ceil_le]
    have h0 : (0 : ℚ) ≤ ((t - t0 : Int) : ℚ) := by exact_mod_cast ht0
    rw [div_le_iff₀ (by norm_num : (0 : ℚ) < 1000)]
    push_cast at h0 ⊢
    linarith
  have hreset : checkRateLimit ⟨N, 0⟩
      ⟨0 + calls.length, 0 + (calls.map (fun c => c.2.2)).sum, lrt2, t0⟩ t2 est2
      = (⟨true, none⟩, ⟨0, 0, t2, t2⟩) := by
    unfold checkRateLimit
    rw [if_pos (by simpa using by omega : (60000 : Int) ≤ t2 - t0)]
  refine ⟨by rw [hrun], ?_, ?_, ?_⟩
  · exact ⟨retryAfterOf (t - t0), by rw [hrun]; exact hrej, hpos, hle60⟩
  · rw [hrun]; exact hreset
  · unfold updateRateLimitCounters
    rw [if_neg (by simpa using by omega : ¬ ((60000 : Int) ≤ t3 - t2))]
    simp

/-- Witness for C5 at `N = 2`, two admitted calls, a rejected third check at
30 s, and a fresh window at 70 s. -/
theorem rateLimit_rpm_window_witness :
    (runRateLimitCalls ⟨2, 0⟩ ⟨0, 0, 0, 0⟩ [(10, 5, 5), (20, 5, 5)]).1 = true ∧
    (∃ r : Int,
      checkRateLimit ⟨2, 0⟩
          (runRateLimitCalls ⟨2, 0⟩ ⟨0, 0, 0, 0⟩ [(10, 5, 5), (20, 5, 5)]).2
          30000 1
        = (⟨false, some r⟩,
           (runRateLimitCalls ⟨2, 0⟩ ⟨0, 0, 0, 0⟩ [(10, 5, 5), (20, 5, 5)]).2) ∧
      0 < r ∧ r ≤ 60) ∧
    checkRateLimit ⟨2, 0⟩
        (runRateLimitCalls ⟨2, 0⟩ ⟨0, 0, 0, 0⟩ [(10, 5, 5), (20, 5, 5)]).2
        70000 1
      = (⟨true, none⟩, ⟨0, 0, 70000, 70000⟩) ∧
    updateRateLimitCounters ⟨0, 0, 70000, 70000⟩ 70001 7
      = ⟨1, 7, 70001, 70000⟩ :=
  rateLimit_rpm_window 2 (by decide) 0 0 [(10, 5, 5), (20, 5, 5)] (by decide)
    (by decide) 30000 (by decide) (by decide) 1 70000 (by decide) 1
    70001 (by decide) 7

/-! ## Model orchestrator (ModelOrchestrator) -/

/-- Per-model configuration from `OrchestratorConfig.models`, mirroring the
orchestrator `ModelConfig` interface. -/
structure OrchModelConfig where
  provider : String
  modelId : String
  enabled : Bool
  priority : Int
  capabilities : List String
  contextWindow : Nat
  deriving Repr, DecidableEq

/-- Optional per-call overrides of `AITask.options`. -/
structure TaskOptions where
  temperature : Option ℚ
  maxTokens : Option Nat
  stream : Option Bool
  deriving Repr, DecidableEq

/-- An AI task, keeping the fields the dispatch logic reads. File path and
selection only flow into message text and are omitted. -/
structure AITask where
  type : String
  query : String
  options : Option TaskOptions
  deriving Repr, DecidableEq

/-- A task selector: name, predicate over the task, ordered candidate model
name list, as in the `TaskSelector` interface. -/
structure TaskSelector where
  name : String
  predicate : AITask → Bool
  modelPriority : List String

/-- The five selectors pushed by
`ModelOrchestrator.registerDefaultSelectors`, in registration order. -/
def registerDefaultSelectors : List TaskSelector :=
  [⟨"code-generation",
    fun task => task.type == "generate" || task.type == "complete",
    ["code-specialist", "general-purpose", "fallback"]⟩,
   ⟨"explanation",
    fun task => task.type == "explain" || task.type == "document",
    ["explanation-specialist", "general-purpose", "fallback"]⟩,
   ⟨"refactoring", fun task => task.type == "refactor",
    ["code-specialist", "general-purpose", "fallback"]⟩,
   ⟨"testing", fun task => task.type == "test",
    ["code-specialist", "general-purpose", "fallback"]⟩,
   ⟨"default", fun _ => true, ["general-purpose", "fallback"]⟩]

/-- The terminal catch-all selector registered last by
`registerDefaultSelectors`. -/
def defaultCatchAll : TaskSelector :=
  ⟨"default", fun _ => true, ["general-purpose", "fallback"]⟩

/-- `ModelOrchestrator.addTaskSelector` prepends (`unshift`) the custom
selector ahead of the existing ones. -/
def addTaskSelector (selector : TaskSelector) (modelSelectors : List TaskSelector) :
    List TaskSelector :=
  selector :: modelSelectors

/-- Selector lookup of `executeTask`:
`this.modelSelectors.find(s => s.predicate(task))`, projected to the
candidate model name list. -/
def selectCandidates (modelSelectors : List TaskSelector) (task : AITask) :
    Option (List String) :=
  (modelSelectors.find? (fun s => s.predicate task)).map (fun s => s.modelPriority)

/-- The fallback behavior configuration of `OrchestratorConfig`. -/
inductive FallbackBehavior where
  | error
  | retry
  | alternative
  deriving Repr, DecidableEq

/-- Errors surfaced by `executeTask`. In the source every failure is a JS
`Error`; this embedding separates the two errors the orchestrator itself
constructs from a provider-call failure carried through unchanged. -/
inductive ExecError where
  | providerFailure (message : String)
  | allModelsFailed (taskType : String)
  | noSelectorAvailable (taskType : String)
  deriving Repr, DecidableEq

/-- Environment of one `executeTask` run: the `config.models` table, which
providers are present in the registry and configured, and the outcome the
provider call (`executeWithModel`) would have for each candidate model
name. `R` is the response type. -/
structure OrchEnv (R : Type) where
  models : String → Option OrchModelConfig
  providerExists : String → Bool
  providerConfigured : String → Bool
  callResult : String → Except String R

/-- The candidate loop of `ModelOrchestrator.executeTask`: skip candidates
whose model is absent or disabled, whose provider is missing or not
configured; call the first remaining one; on success return, on failure
consult `fallbackBehavior` — `alternative` and `retry` fall through to the
next candidate, `error` rethrows. Also returns the list of candidates that
were actually attempted (reached the provider call), in order. -/
def tryCandidates {R : Type} (env : OrchEnv R) (fb : FallbackBehavior)
    (taskType : String) : List String → Except ExecError R × List String
  | [] => (Except.error (ExecError.allModelsFailed taskType), [])
  | modelName :: rest =>
    match env.models modelName with
    | none => tryCandidates env fb taskType rest
    | some modelConfig =>
      if modelConfig.enabled = false then
        tryCandidates env fb taskType rest
      else if env.providerExists modelConfig.provider = false then
        tryCandidates env fb taskType rest
      else if env.providerConfigured modelConfig.provider = false then
        tryCandidates env fb taskType rest
      else
        match env.callResult modelName with
        | Except.ok r => (Except.ok r, [modelName])
        | Except.error e =>
          match fb with
          | FallbackBehavior.alternative =>
            let rec2 := tryCandidates env fb taskType rest
            (rec2.1, modelName :: rec2.2)
          | FallbackBehavior.error =>
            (Except.error (ExecError.providerFailure e), [modelName])
          | FallbackBehavior.retry =>
            let rec2 := tryCandidates env fb taskType rest
            (rec2.1, modelName :: rec2.2)

/-- Shallow embedding of `ModelOrchestrator.executeTask`: selector lookup
followed by the candidate loop; a task with no matching selector fails with
the no-selector error. -/
def executeTask {R : Type} (env : OrchEnv R) (modelSelectors : List TaskSelector)
    (fb : FallbackBehavior) (task : AITask) : Except ExecError R × List String :=
  match selectCandidates modelSelectors task with
  | none => (Except.error (ExecError.noSelectorAvailable task.type), [])
  | some candidates => tryCandidates env fb task.type candidates

/-- A candidate passes all the skip guards of the loop iff its model exists
and is enabled and its provider exists and is configured. -/
def attemptable {R : Type} (env : OrchEnv R) (modelName : String) : Bool :=
  match env.models modelName with
  | none => false
  | some modelConfig =>
    modelConfig.enabled && env.providerExists modelConfig.provider &&
      env.providerConfigured modelConfig.provider

/-- Helper: a candidate that fails one of the skip guards makes the loop
recurse on the rest of the list. -/
theorem tryCandidates_skip {R : Type} (env : OrchEnv R) (fb : FallbackBehavior)
    (taskType : String) (m : String) (rest : List String)
    (h : attemptable env m = false) :
    tryCandidates env fb taskType (m :: rest) = tryCandidates env fb taskType rest := by
  conv_lhs => rw [tryCandidates.eq_def]
  unfold attemptable at h
  cases hm : env.models m with
  | none => simp [hm]
  | some mc =>
    rw [hm] at h
    simp only [hm]
    cases he : mc.enabled with
    | false => simp [he]
    | true =>
      cases hpe : env.providerExists mc.provider with
      | false => simp [he, hpe]
      | true =>
        cases hpc : env.providerConfigured mc.provider with
        | false => simp [he, hpe, hpc]
        | true => simp [he, hpe, hpc] at h

/-- Helper: at the first candidate that passes all skip guards, a failing
provider call under the `error` policy is rethrown at once with that single
candidate attempted. -/
theorem tryCandidates_error_first {R : Type} (env : OrchEnv R) (taskType : String)
    (candidates : List String) (m e : String)
    (hfirst : candidates.find? (fun x => attemptable env x) = some m)
    (hfail : env.callResult m = Except.error e) :
    tryCandidates env FallbackBehavior.error taskType candidates
      = (Except.error (ExecError.providerFailure e), [m]) := by
  induction candidates with
  | nil => simp [List.find?] at hfirst
  | cons c rest ih =>
    by_cases hc : attemptable env c = true
    · rw [List.find?_cons_of_pos rest hc] at hfirst
      have hcm : c = m := by injection hfirst
      rw [← hcm] at hfail ⊢
      rw [tryCandidates.eq_def]
      unfold attemptable at hc
      cases hm : env.models c with
      | none => rw [hm] at hc; cases hc
      | some mc =>
        rw [hm] at hc
        simp only [Bool.and_eq_true] at hc
        obtain ⟨⟨he, hpe⟩, hpc⟩ := hc
        simp only [hm]
        rw [if_neg (by simp [he]), if_neg (by simp [hpe]),
          if_neg (by simp [hpc]), hfail]
    · have hc2 : attemptable env c = false := by simpa using hc
      rw [List.find?_cons_of_neg rest (by simp [hc2])] at hfirst
      rw [tryCandidates_skip env _ taskType c rest hc2]
      exact ih hfirst

/-- C2: with `fallbackBehavior = error`, when the first candidate that is
actually attempted (passes every skip guard) fails, `executeTask` rethrows
that failure at once and the attempted-candidate trace is exactly that one
candidate — no later candidate is attempted. -/
theorem executeTask_error_fallback_stops {R : Type} (env : OrchEnv R)
    (modelSelectors : List TaskSelector) (task : AITask)
    (candidates : List String) (m e : String)
    (hsel : selectCandidates modelSelectors task = some candidates)
    (hfirst : candidates.find? (fun x => attemptable env x) = some m)
    (hfail : env.callResult m = Except.error e) :
    executeTask env modelSelectors FallbackBehavior.error task
      = (Except.error (ExecError.providerFailure e), [m]) := by
  unfold executeTask
  rw [hsel]
  exact tryCandidates_error_first env task.type candidates m e hfirst hfail

/-- Concrete single-provider environment in which every provider call
fails; used by the witnesses of the orchestrator theorems. -/
def failingEnv : OrchEnv Nat where
  models := fun n =>
    if n = "general-purpose"
    then some ⟨"openai", "gpt-4", true, 5, ["chat"], 8192⟩
    else none
  providerExists := fun p => p == "openai"
  providerConfigured := fun _ => true
  callResult := fun _ => Except.error "boom"

/-- Witness for C2: under the `error` policy the single failure of the
first attempted candidate surfaces at once. -/
theorem executeTask_error_fallback_stops_witness :
    executeTask failingEnv registerDefaultSelectors FallbackBehavior.error
        ⟨"general", "hi", none⟩
      = (Except.error (ExecError.providerFailure "boom"), ["general-purpose"]) :=
  executeTask_error_fallback_stops failingEnv registerDefaultSelectors
    ⟨"general", "hi", none⟩ ["general-purpose", "fallback"] "general-purpose"
    "boom" (by decide) (by decide) rfl

/-- Helper: the candidate loop treats the `retry` and `alternative`
policies identically on every candidate list. -/
theorem tryCandidates_retry_eq_alternative {R : Type} (env : OrchEnv R)
    (taskType : String) (candidates : List String) :
    tryCandidates env FallbackBehavior.retry taskType candidates
      = tryCandidates env FallbackBehavior.alternative taskType candidates := by
  induction candidates with
  | nil => rfl
  | cons c rest ih =>
    rw [tryCandidates.eq_def]
    conv_rhs => rw [tryCandidates.eq_def]
    cases hm : env.models c with
    | none => simpa [hm] using ih
    | some mc =>
      by_cases he : mc.enabled = false
      · simpa [hm, he] using ih
      · by_cases hpe : env.providerExists mc.provider = false
        · simpa [hm, he, hpe] using ih
        · by_cases hpc : env.providerConfigured mc.provider = false
          · simpa [hm, he, hpe, hpc] using ih
          · cases hcall : env.callResult c with
            | ok r => simp [hm, he, hpe, hpc, hcall]
            | error e => simp [hm, he, hpe, hpc, hcall, ih]

/-- C3: `executeTask` under the `retry` policy is observationally identical
to `executeTask` under the `alternative` policy — same result and same
attempted candidates, for every environment, selector list and task. -/
theorem executeTask_retry_eq_alternative {R : Type} (env : OrchEnv R)
    (modelSelectors : List TaskSelector) (task : AITask) :
    executeTask env modelSelectors FallbackBehavior.retry task
      = executeTask env modelSelectors FallbackBehavior.alternative task := by
  unfold executeTask
  cases hsel : selectCandidates modelSelectors task with
  | none => rfl
  | some candidates =>
    exact tryCandidates_retry_eq_alternative env task.type candidates

/-- Helper: when every candidate is skipped or fails, the loop under a
non-error policy exhausts the list and reports that all models failed. -/
theorem tryCandidates_exhausted {R : Type} (env : OrchEnv R)
    (fb : FallbackBehavior) (taskType : String)
    (hfb : fb ≠ FallbackBehavior.error) :
    ∀ candidates : List String,
      (∀ m ∈ candidates, attemptable env m = true →
        ∃ e, env.callResult m = Except.error e) →
      (tryCandidates env fb taskType candidates).1
        = Except.error (ExecError.allModelsFailed taskType) := by
  intro candidates
  induction candidates with
  | nil => intro _; rfl
  | cons c rest ih =>
    intro hall
    by_cases hc : attemptable env c = true
    · obtain ⟨e, he⟩ := hall c (List.mem_cons_self c rest) hc
      rw [tryCandidates.eq_def]
      unfold attemptable at hc
      cases hm : env.models c with
      | none => rw [hm] at hc; cases hc
      | some mc =>
        rw [hm] at hc
        simp only [Bool.and_eq_true] at hc
        obtain ⟨⟨hen, hpe⟩, hpc⟩ := hc
        simp only [hm]
        rw [if_neg (by simp [hen]), if_neg (by simp [hpe]),
          if_neg (by simp [hpc]), he]
        cases fb with
        | error => exact absurd rfl hfb
        | retry =>
          simpa using ih (fun m hm' h => hall m (List.mem_cons_of_mem c hm') h)
        | alternative =>
          simpa using ih (fun m hm' h => hall m (List.mem_cons_of_mem c hm') h)
    · rw [tryCandidates_skip env fb taskType c rest (by simpa using hc)]
      exact ih (fun m hm' h => hall m (List.mem_cons_of_mem c hm') h)

/-- C8: when the selected candidate list is exhausted with every candidate
skipped or failing, `executeTask` under a non-error fallback policy fails
with the terminal all-models-failed error carrying the task type. -/
theorem executeTask_exhausted_allModelsFailed {R : Type} (env : OrchEnv R)
    (modelSelectors : List TaskSelector) (fb : FallbackBehavior) (task : AITask)
    (candidates : List String)
    (hfb : fb ≠ FallbackBehavior.error)
    (hsel : selectCandidates modelSelectors task = some candidates)
    (hall : ∀ m ∈ candidates, attemptable env m = true →
      ∃ e, env.callResult m = Except.error e) :
    (executeTask env modelSelectors fb task).1
      = Except.error (ExecError.allModelsFailed task.type) := by
  unfold executeTask
  rw [hsel]
  exact tryCandidates_exhausted env fb task.type hfb candidates hall

/-- Witness for C8: in the failing environment every candidate of the
default selector is skipped or fails, so the task fails with the
all-models-failed error carrying its type. -/
theorem executeTask_exhausted_allModelsFailed_witness :
    (executeTask failingEnv registerDefaultSelectors FallbackBehavior.alternative
        ⟨"general", "hi", none⟩).1
      = Except.error (ExecError.allModelsFailed "general") :=
  executeTask_exhausted_allModelsFailed failingEnv registerDefaultSelectors
    FallbackBehavior.alternative ⟨"general", "hi", none⟩
    ["general-purpose", "fallback"] (by decide) (by decide)
    (fun m _ _ => ⟨"boom", rfl⟩)

/-- A selector whose predicate matches every task but whose candidate list
is empty; `addTaskSelector` accepts it unchecked. -/
def emptyCustomSelector : TaskSelector := ⟨"custom-empty", fun _ => true, []⟩

/-- C7 counterexample: after prepending a matching custom selector with an
empty candidate list, selector lookup succeeds but the selected candidate
model-name list is empty, contrary to the claim. -/
theorem selected_candidates_empty_counterexample :
    selectCandidates (addTaskSelector emptyCustomSelector registerDefaultSelectors)
        ⟨"generate", "write", none⟩ = some [] := rfl

/-- C7 as amended: for every state reachable by prepending custom selectors
to the defaults, selector lookup never comes up empty; the selected
candidate list is non-empty provided every prepended custom selector has a
non-empty candidate list (the built-in defaults all do); the selector list
always ends in the default catch-all, whose predicate accepts every task
and whose candidate list is non-empty; and `addTaskSelector` prepends. -/
theorem selector_lookup_default_guarantee (customs : List TaskSelector)
    (task : AITask) :
    (∃ cands, selectCandidates (customs ++ registerDefaultSelectors) task
        = some cands ∧
      ((∀ s ∈ customs, s.modelPriority ≠ []) → cands ≠ [])) ∧
    (customs ++ registerDefaultSelectors).getLast? = some defaultCatchAll ∧
    defaultCatchAll.predicate task = true ∧
    defaultCatchAll.modelPriority ≠ [] ∧
    (∀ s l, addTaskSelector s l = s :: l) := by
  have hdef : ∀ s ∈ registerDefaultSelectors, s.modelPriority ≠ [] := by
    intro s hs
    simp only [registerDefaultSelectors, List.mem_cons, List.mem_singleton,
      List.not_mem_nil, or_false] at hs
    rcases hs with rfl | rfl | rfl | rfl | rfl <;> simp
  have hmem : defaultCatchAll ∈ customs ++ registerDefaultSelectors := by
    refine List.mem_append_right _ ?_
    simp [registerDefaultSelectors, defaultCatchAll]
  have hsome : ((customs ++ registerDefaultSelectors).find?
      (fun s => s.predicate task)).isSome := by
    rw [List.find?_isSome]
    exact ⟨defaultCatchAll, hmem, rfl⟩
  obtain ⟨sel, hfind⟩ := Option.isSome_iff_exists.mp hsome
  refine ⟨⟨sel.modelPriority, ?_, ?_⟩, ?_, rfl, by simp [defaultCatchAll],
    fun s l => rfl⟩
  · unfold selectCandidates
    rw [hfind]
    rfl
  · intro hcustoms
    have hselmem := List.mem_of_find?_eq_some hfind
    rcases List.mem_append.mp hselmem with hin | hin
    · exact hcustoms sel hin
    · exact hdef sel hin
  · rw [List.getLast?_append]
    simp [registerDefaultSelectors, defaultCatchAll]

/-- Witness for C7 as amended: with no custom selectors registered, an
arbitrary task selects a non-empty candidate list. -/
theorem selector_lookup_default_guarantee_witness :
    ∃ cands, selectCandidates ([] ++ registerDefaultSelectors)
        ⟨"chitchat", "hello", none⟩ = some cands ∧ cands ≠ [] := by
  obtain ⟨⟨cands, hc, hne⟩, -, -, -, -⟩ :=
    selector_lookup_default_guarantee [] ⟨"chitchat", "hello", none⟩
  exact ⟨cands, hc, hne (by simp)⟩

/-! ## Effective request options (ModelOrchestrator.executeWithModel) -/

/-- Shallow embedding of `ModelOrchestrator.getTemperatureForTask`. -/
def getTemperatureForTask (taskType : String) : ℚ :=
  match taskType with
  | "generate" | "complete" => 7/10
  | "explain" | "document" => 3/10
  | "refactor" | "test" => 1/5
  | _ => 1/2

/-- Shallow embedding of `ModelOrchestrator.getMaxTokensForTask`. The
source has no arm for "test"; it falls into the default, which also
returns 1000. -/
def getMaxTokensForTask (taskType : String) : Nat :=
  match taskType with
  | "explain" | "document" => 2000
  | "generate" | "complete" => 1500
  | "refactor" => 1000
  | _ => 1000

/-- JS `a || b` on an optional rational: the fallback is used when the
value is absent or zero, since the number 0 is falsy. -/
def jsOrElseQ (value : Option ℚ) (fallback : ℚ) : ℚ :=
  match value with
  | some v => if v = 0 then fallback else v
  | none => fallback

/-- JS `a || b` on an optional token count, with 0 falsy. -/
def jsOrElseNat (value : Option Nat) (fallback : Nat) : Nat :=
  match value with
  | some v => if v = 0 then fallback else v
  | none => fallback

/-- The request options an orchestrated call carries, keeping the fields
`executeWithModel` sets. -/
structure ApiRequestOptions where
  model : String
  maxTokens : Nat
  temperature : ℚ
  stream : Bool
  deriving Repr, DecidableEq

/-- The options record built at the top of
`ModelOrchestrator.executeWithModel`:
`maxTokens: task.options?.maxTokens || getMaxTokensForTask(task)` and
likewise for temperature, `stream: !!streamCallback`. -/
def executeWithModelOptions (modelId : String) (task : AITask)
    (hasStreamCallback : Bool) : ApiRequestOptions :=
  { model := modelId
    maxTokens := jsOrElseNat (task.options.bind (fun o => o.maxTokens))
      (getMaxTokensForTask task.type)
    temperature := jsOrElseQ (task.options.bind (fun o => o.temperature))
      (getTemperatureForTask task.type)
    stream := hasStreamCallback }

/-- C6 counterexample: a supplied temperature of 0 does not win (JS `||`
treats it as absent), and the default max tokens for a "complete" task is
1500, not the 1000 the claim states. -/
theorem effective_options_counterexample :
    (executeWithModelOptions "gpt-4"
        ⟨"generate", "write a function", some ⟨some 0, some 0, none⟩⟩
        false).temperature ≠ 0 ∧
    (executeWithModelOptions "gpt-4" ⟨"complete", "finish this", none⟩
        false).maxTokens ≠ 1000 := by
  constructor
  · show (7/10 : ℚ) ≠ 0
    norm_num
  · decide

/-- C6 as amended: a supplied nonzero temperature or max-tokens value wins;
a supplied zero, like an absent value, falls back to the task-type
defaults, which are temperature 0.7 for generate/complete, 0.3 for
explain/document, 0.2 for refactor/test, 0.5 otherwise, and max tokens
1500 for generate and complete, 2000 for explain/document, 1000 for
refactor/test, 1000 otherwise. -/
theorem effective_options_resolution (task : AITask) (modelId : String)
    (cb : Bool) :
    (∀ v : ℚ, task.options.bind (fun o => o.temperature) = some v → v ≠ 0 →
      (executeWithModelOptions modelId task cb).temperature = v) ∧
    ((task.options.bind (fun o => o.temperature) = none ∨
        task.options.bind (fun o => o.temperature) = some 0) →
      (executeWithModelOptions modelId task cb).temperature
        = getTemperatureForTask task.type) ∧
    (∀ v : Nat, task.options.bind (fun o => o.maxTokens) = some v → v ≠ 0 →
      (executeWithModelOptions modelId task cb).maxTokens = v) ∧
    ((task.options.bind (fun o => o.maxTokens) = none ∨
        task.options.bind (fun o => o.maxTokens) = some 0) →
      (executeWithModelOptions modelId task cb).maxTokens
        = getMaxTokensForTask task.type) ∧
    ((task.type = "generate" ∨ task.type = "complete") →
      getTemperatureForTask task.type = 7/10 ∧
        getMaxTokensForTask task.type = 1500) ∧
    ((task.type = "explain" ∨ task.type = "document") →
      getTemperatureForTask task.type = 3/10 ∧
        getMaxTokensForTask task.type = 2000) ∧
    ((task.type = "refactor" ∨ task.type = "test") →
      getTemperatureForTask task.type = 1/5 ∧
        getMaxTokensForTask task.type = 1000) ∧
    (task.type ∉ ["generate", "complete", "explain", "document", "refactor",
        "test"] →
      getTemperatureForTask task.type = 1/2 ∧
        getMaxTokensForTask task.type = 1000) := by
  refine ⟨?_, ?_, ?_, ?_, ?_, ?_, ?_, ?_⟩
  · intro v hv hne
    unfold executeWithModelOptions jsOrElseQ
    rw [hv]
    simp [hne]
  · intro h
    unfold executeWithModelOptions jsOrElseQ
    rcases h with h | h <;> simp [h]
  · intro v hv hne
    unfold executeWithModelOptions jsOrElseNat
    rw [hv]
    simp [hne]
  · intro h
    unfold executeWithModelOptions jsOrElseNat
    rcases h with h | h <;> simp [h]
  · rintro (h | h) <;> rw [h] <;> exact ⟨rfl, rfl⟩
  · rintro (h | h) <;> rw [h] <;> exact ⟨rfl, rfl⟩
  · rintro (h | h) <;> rw [h] <;> exact ⟨rfl, rfl⟩
  · intro h
    simp only [List.mem_cons, List.not_mem_nil, or_false, not_or] at h
    obtain ⟨h1, h2, h3, h4, h5, h6⟩ := h
    constructor
    · unfold getTemperatureForTask
      split <;> simp_all
    · unfold getMaxTokensForTask
      split <;> simp_all

/-- Witness for C6 as amended: nonzero overrides win, and a task type
outside the table gets the balanced defaults. -/
theorem effective_options_resolution_witness :
    (executeWithModelOptions "gpt-4"
        ⟨"generate", "q", some ⟨some (2/5), some 512, none⟩⟩ true).temperature
      = 2/5 ∧
    (executeWithModelOptions "gpt-4"
        ⟨"generate", "q", some ⟨some (2/5), some 512, none⟩⟩ true).maxTokens
      = 512 ∧
    getTemperatureForTask "review" = 1/2 ∧
    getMaxTokensForTask "review" = 1000 := by
  obtain ⟨ht, -, hm, -, -, -, -, -⟩ :=
    effective_options_resolution
      ⟨"generate", "q", some ⟨some (2/5), some 512, none⟩⟩ "gpt-4" true
  obtain ⟨-, -, -, -, -, -, -, hoth⟩ :=
    effective_options_resolution ⟨"review", "q", none⟩ "gpt-4" false
  exact ⟨ht (2/5) rfl (by norm_num), hm 512 rfl (by norm_num),
    (hoth (by decide)).1, (hoth (by decide)).2⟩

/-! ## Model introspection (getModels / getModelsByCapability) -/

/-- A model entry as `ModelOrchestrator.getModels` returns it: the
configuration plus the computed `available` flag. -/
structure AvailableModel where
  model : OrchModelConfig
  available : Bool
  deriving Repr, DecidableEq

/-- Shallow embedding of `ModelOrchestrator.getModels`: every configured
model, keyed by name, with `available = provider exists && provider
configured`. The entry list stands for `Object.entries(this.config.models)`
in insertion order. -/
def getModels (models : List (String × OrchModelConfig))
    (providerExists providerConfigured : String → Bool) :
    List (String × AvailableModel) :=
  models.map (fun nm =>
    (nm.1, ⟨nm.2, providerExists nm.2.provider && providerConfigured nm.2.provider⟩))

/-- Shallow embedding of `ModelOrchestrator.getModelsByCapability`: filter
the `getModels` entries on capability membership and availability, drop the
names, and sort by descending priority (`(a, b) => b.priority - a.priority`
under the stable JS sort, modelled by the stable merge sort). -/
def getModelsByCapability (models : List (String × OrchModelConfig))
    (providerExists providerConfigured : String → Bool) (capability : String) :
    List AvailableModel :=
  (((getModels models providerExists providerConfigured).filter
      (fun nm => nm.2.model.capabilities.contains capability && nm.2.available)).map
    (fun nm => nm.2)).mergeSort
    (fun a b => decide (b.model.priority ≤ a.model.priority))

/-- C9: `getModelsByCapability` returns exactly the configured models whose
capability list contains the capability and whose owning provider exists
and is configured (each carrying `available = true`), and the returned list
is sorted by descending priority. -/
theorem getModelsByCapability_spec (models : List (String × OrchModelConfig))
    (pe pc : String → Bool) (capability : String) :
    (∀ am : AvailableModel,
      am ∈ getModelsByCapability models pe pc capability ↔
        ((∃ n, (n, am.model) ∈ models) ∧
          am.model.capabilities.contains capability = true ∧
          pe am.model.provider = true ∧ pc am.model.provider = true ∧
          am.available = true)) ∧
    (getModelsByCapability models pe pc capability).Pairwise
      (fun a b => b.model.priority ≤ a.model.priority) := by
  constructor
  · intro am
    unfold getModelsByCapability getModels
    rw [List.mem_mergeSort]
    simp only [List.mem_map, List.mem_filter, List.mem_map]
    constructor
    · rintro ⟨x, ⟨⟨y, hy, rfl⟩, hq⟩, rfl⟩
      simp only [Bool.and_eq_true] at hq
      obtain ⟨hcap, hav⟩ := hq
      refine ⟨⟨y.1, hy⟩, hcap, hav.1, hav.2, ?_⟩
      show (pe y.2.provider && pc y.2.provider) = true
      simp [hav.1, hav.2]
    · rintro ⟨⟨n, hmem⟩, hcap, hpe, hpc, hav⟩
      refine ⟨(n, ⟨am.model,
        pe am.model.provider && pc am.model.provider⟩), ⟨⟨(n, am.model),
        hmem, rfl⟩, ?_⟩, ?_⟩
      · simp_all
      · cases am with
        | mk m a =>
          simp only at hav ⊢
          simp [hpe, hpc, hav]
  · refine List.Pairwise.imp ?_ (List.sorted_mergeSort ?_ ?_ _)
    · exact fun h => of_decide_eq_true h
    · exact fun a b c hab hbc => decide_eq_true
        (le_trans (of_decide_eq_true hbc) (of_decide_eq_true hab))
    · intro a b
      rcases le_total b.model.priority a.model.priority with h | h <;> simp [h]

/-! ## Streaming decoders (OpenAIProvider.streamingChat and
AnthropicProvider.streamingChat)

Both providers append incoming bytes to a rolling buffer, split on
newlines, and process each complete line; the embeddings below operate on
complete lines, each already classified the way the line handler's parse
does (blank line, the `data: [DONE]` sentinel line, a parsed `data: ` JSON
frame, or a line without the `data: ` prefix). Chunk metadata the claims
never read (response id, model, created) is tracked only where the handler
assigns it to fields used later. -/

/-- One complete line of the OpenAI stream as the data handler classifies
it: `dataDelta` carries `choices[0].delta.content` and
`choices[0].finish_reason` of the parsed chunk. -/
inductive OpenAIStreamLine where
  | blank
  | doneSentinel
  | dataDelta (content : Option String) (finishReason : Option String)
  | nonData
  deriving Repr, DecidableEq

/-- Accumulated observable state of one OpenAI streaming call: the
assembled content, the last truthy finish reason, and every `callback`
invocation in order. -/
structure OpenAIStreamState where
  fullContent : String
  finishReason : String
  calls : List (String × Bool)
  deriving Repr, DecidableEq

/-- The per-line body of the OpenAI `data` handler: blank lines and lines
without the `data: ` prefix are skipped, the `[DONE]` sentinel fires
`callback(empty, true)`, and a data frame appends its (possibly empty)
content, records a truthy finish reason, and fires
`callback(content, false)`. -/
def processOpenAIStreamLine (st : OpenAIStreamState) :
    OpenAIStreamLine → OpenAIStreamState
  | OpenAIStreamLine.blank => st
  | OpenAIStreamLine.nonData => st
  | OpenAIStreamLine.doneSentinel =>
    { st with calls := st.calls ++ [("", true)] }
  | OpenAIStreamLine.dataDelta content finishReason =>
    let contentStr := content.getD ""
    { fullContent := st.fullContent ++ contentStr
      finishReason :=
        match finishReason with
        | some f => if f = "" then st.finishReason else f
        | none => st.finishReason
      calls := st.calls ++ [(contentStr, false)] }

/-- A successful OpenAI streaming call whose frames arrive as complete
lines: the data handler processes each line, then the `end` handler fires
the final `callback(empty, true)` and resolves with `fullContent` as the
response content. -/
def openAIStreamingChatRun (lines : List OpenAIStreamLine) : OpenAIStreamState :=
  let st := lines.foldl processOpenAIStreamLine ⟨"", "", []⟩
  { st with calls := st.calls ++ [("", true)] }

/-- One complete line of the Anthropic stream as the data handler
classifies it, one constructor per recognized `data.type`; `blank` covers
both the empty line and the bare `data: ` line the handler skips. -/
inductive AnthropicStreamLine where
  | blank
  | doneSentinel
  | messageStart (id model : String)
  | contentBlockStart
  | contentBlockDelta (deltaType : String) (text : Option String)
  | messageDelta (stopReason : Option String)
  | messageStop (usage : Option (Nat × Nat))
  | nonData
  deriving Repr, DecidableEq

/-- Accumulated observable state of one Anthropic streaming call. -/
structure AnthropicStreamState where
  fullContent : String
  responseId : String
  responseModel : String
  finishReason : String
  inputTokens : Nat
  outputTokens : Nat
  calls : List (String × Bool)
  deriving Repr, DecidableEq

/-- The per-line body of the Anthropic `data` handler: only a
`content_block_delta` whose delta type is `text` with truthy text fires
`callback(text, false)`; `message_stop` records usage when present; the
protocol stop event fires no callback. A literal `data: [DONE]` line would
fire `callback(empty, true)` exactly as in the OpenAI handler. -/
def processAnthropicStreamLine (st : AnthropicStreamState) :
    AnthropicStreamLine → AnthropicStreamState
  | AnthropicStreamLine.blank => st
  | AnthropicStreamLine.nonData => st
  | AnthropicStreamLine.doneSentinel =>
    { st with calls := st.calls ++ [("", true)] }
  | AnthropicStreamLine.messageStart id model =>
    { st with responseId := id, responseModel := model }
  | AnthropicStreamLine.contentBlockStart => st
  | AnthropicStreamLine.contentBlockDelta deltaType text =>
    match text with
    | some s =>
      if deltaType = "text" ∧ s ≠ "" then
        { st with fullContent := st.fullContent ++ s,
                  calls := st.calls ++ [(s, false)] }
      else st
    | none => st
  | AnthropicStreamLine.messageDelta stopReason =>
    match stopReason with
    | some r => { st with finishReason := r }
    | none => st
  | AnthropicStreamLine.messageStop usage =>
    match usage with
    | some u => { st with inputTokens := u.1, outputTokens := u.2 }
    | none => st

/-- A successful Anthropic streaming call whose frames arrive as complete
lines: the data handler processes each line, then the `end` handler fires
the final `callback(empty, true)` and substitutes estimates for missing
token counts (`Math.ceil(fullContent.length / 4)` for output). -/
def anthropicStreamingChatRun (estimatedPromptTokens : Nat)
    (lines : List AnthropicStreamLine) : AnthropicStreamState :=
  let st := lines.foldl processAnthropicStreamLine ⟨"", "", "", "", 0, 0, []⟩
  let st2 := { st with calls := st.calls ++ [("", true)] }
  let st3 :=
    if st2.inputTokens = 0
    then { st2 with inputTokens := estimatedPromptTokens }
    else st2
  if st3.outputTokens = 0
  then { st3 with outputTokens := (st3.fullContent.length + 3) / 4 }
  else st3

/-- The OpenAI frames of the claim scenario: deltas He, llo, ! followed by
the `data: [DONE]` stop sentinel. -/
def helloFramesOpenAI : List OpenAIStreamLine :=
  [OpenAIStreamLine.dataDelta (some "He") none,
   OpenAIStreamLine.dataDelta (some "llo") none,
   OpenAIStreamLine.dataDelta (some "!") none,
   OpenAIStreamLine.doneSentinel]

/-- The Anthropic frames of the claim scenario: text deltas He, llo, !
followed by the protocol stop event `message_stop`. -/
def helloFramesAnthropic : List AnthropicStreamLine :=
  [AnthropicStreamLine.contentBlockDelta "text" (some "He"),
   AnthropicStreamLine.contentBlockDelta "text" (some "llo"),
   AnthropicStreamLine.contentBlockDelta "text" (some "!"),
   AnthropicStreamLine.messageStop none]

/-- C1: decoding the claim frames on the OpenAI connector fires the
done-callback twice — once at the `[DONE]` sentinel line and once again
unconditionally in the `end` handler — so the call sequence is not the
claimed one ending in a single `(empty, true)`; the Anthropic connector,
whose stop event fires no callback, produces exactly the claimed sequence.
The final content is Hello! on both. -/
theorem openAI_stream_double_done :
    (openAIStreamingChatRun helloFramesOpenAI).calls
      = [("He", false), ("llo", false), ("!", false), ("", true), ("", true)] ∧
    (openAIStreamingChatRun helloFramesOpenAI).fullContent = "Hello!" ∧
    (anthropicStreamingChatRun 0 helloFramesAnthropic).calls
      = [("He", false), ("llo", false), ("!", false), ("", true)] ∧
    (anthropicStreamingChatRun 0 helloFramesAnthropic).fullContent = "Hello!" := by
  decide

end Asura
